import Mathlib

/-!
Verification of the configuration-management variable-type abstraction
(`src/lib/confmgt/var_type_def_st.h`).

The header declares `struct var_type_fns_t` (a table of optional function
pointers implementing one variable type), three `VTFLAG_*` flags, and
`struct var_type_def_t` (a named type descriptor binding a function table,
opaque parameters and flags).  We embed those structures shallowly: the
type-erased `void *` value slot becomes a type parameter `V`, the opaque
`const void *params` becomes a type parameter `P`, each optional function
pointer becomes an `Option`-wrapped Lean function, and the C convention
"return 0 on success / -1 with `*errmsg` set on failure" becomes an
explicit result record.

The dispatch resolver (the `typedvar` layer) is not part of the given
sources; only its documented behaviour is.  Its operations below are
therefore modelled from the spec, and each such definition says so in its
doc comment.
-/

namespace ConfMgt

/-- Embedding of `struct config_line_t` as consumed here: one key/value
line.  (Provenance and linkage are irrelevant to this core; a sequence of
lines is a `List config_line_t`.) -/
structure config_line_t where
  key : String
  value : String
deriving DecidableEq

/-- Result of a C-style parse call `int parse(void *target, const char
*value, char **errmsg, const void *params)`: the returned status, the
value held by `*target` after the call, and the error message written
through `errmsg` (absent when none was written). -/
structure parse_result (V : Type) where
  ret : Int
  target : V
  errmsg : Option String
deriving DecidableEq

/-- Embedding of `struct var_type_fns_t`: a structure full of function
pointers implementing a variable type.  Every type MUST implement
`parse` or `kv_parse` and `encode` or `kv_encode`; the other function
pointers MAY be NULL (`none`).  `const` pointer arguments become plain
inputs; mutated pointees become outputs. -/
structure var_type_fns_t (V P : Type) where
  /-- Try to parse a string holding a value of this type; adjust `target`
  and return 0 on success, return -1 with a fresh error message on
  failure. -/
  parse : Option (V → String → P → parse_result V)
  /-- As `parse`, but reads the first line of a key/value line sequence. -/
  kv_parse : Option (V → List config_line_t → P → parse_result V)
  /-- Encode a value as a newly allocated string; `none` when the option
  has a NULL value or on internal error. -/
  encode : Option (V → P → Option String)
  /-- As `encode`, but produces a list of key/value lines under the given
  key; the empty list stands for the NULL result (no lines, or internal
  error). -/
  kv_encode : Option (String → V → P → List config_line_t)
  /-- Free all storage held in the argument and reset it to a default. -/
  clear : Option (V → P → V)
  /-- Return true iff the two values are the same. -/
  eq : Option (V → V → P → Bool)
  /-- Try to copy `value` into `target`; 0 on success, -1 on failure. -/
  copy : Option (V → V → P → Int × V)
  /-- Return true iff the value is valid by the rules of this type. -/
  ok : Option (V → P → Bool)
  /-- Mark a value as fragile so that the next assignment replaces rather
  than extends it; only meaningful for cumulative types. -/
  mark_fragile : Option (V → P → V)

/-- `VTFLAG_UNSETTABLE`: set iff a variable of this type can never be set
directly by name. -/
def VTFLAG_UNSETTABLE : Nat := 1 <<< 0

/-- `VTFLAG_CONTAINED`: set iff a variable of this type is always
contained in another variable. -/
def VTFLAG_CONTAINED : Nat := 1 <<< 1

/-- `VTFLAG_CUMULATIVE`: set iff a variable of this type can be set more
than once without destroying older values. -/
def VTFLAG_CUMULATIVE : Nat := 1 <<< 2

/-- Embedding of `struct var_type_def_t`: a named type descriptor binding
a function table, the opaque parameters passed to every call into that
table, and a bitwise OR of `VTFLAG_*` flags. -/
structure var_type_def_t (V P : Type) where
  name : String
  fns : var_type_fns_t V P
  params : P
  flags : Nat

/-- The descriptor-usage errors of the resolver: `lossy_synthesis` when it
is asked to bridge capabilities in a way that would drop information, and
`misconfigured` when a descriptor implements neither member of a required
pair (a construction-time defect). -/
inductive usage_error where
  | lossy_synthesis
  | misconfigured
deriving DecidableEq

/-- Modelled from the spec: the engine-supplied default key used when
parse-from-text synthesizes a single-entry line sequence for `kv_parse`
(the `typedvar` resolver implementation is not among the given sources). -/
def engine_default_key : String := "K"

/-- Modelled from the spec: the placeholder key encode-to-text hands to
`kv_encode` when synthesizing a plain encoding (the `typedvar` resolver
implementation is not among the given sources). -/
def placeholder_key : String := "K"

/-- Modelled from the spec: resolver entry parse-from-text.  If `parse`
is present, call it; else require `kv_parse`, synthesize a single-entry
line sequence with an engine-supplied default key and the given text, and
delegate to it.  (The `typedvar` resolver implementation is not among the
given sources.) -/
def parse_from_text {V P : Type} (d : var_type_def_t V P) (target : V)
    (text : String) : Except usage_error (parse_result V) :=
  match d.fns.parse with
  | some p => .ok (p target text d.params)
  | none =>
    match d.fns.kv_parse with
    | some kp =>
      .ok (kp target [⟨engine_default_key, text⟩] d.params)
    | none => .error .misconfigured

/-- Modelled from the spec: resolver entry parse-from-line.  If `kv_parse`
is present, call it on the whole sequence (only the first line is its
concern); else require `parse` and delegate the value text of the first
line to it.  (The `typedvar` resolver implementation is not among the
given sources.) -/
def parse_from_line {V P : Type} (d : var_type_def_t V P) (target : V)
    (line : config_line_t) (rest : List config_line_t) :
    Except usage_error (parse_result V) :=
  match d.fns.kv_parse with
  | some kp => .ok (kp target (line :: rest) d.params)
  | none =>
    match d.fns.parse with
    | some p => .ok (p target line.value d.params)
    | none => .error .misconfigured

/-- Modelled from the spec: resolver entry encode-to-text.  If `encode` is
present, call it; else require `kv_encode`, call it with a placeholder
key, and return the value text of the single line when it yields exactly
one line; zero or multiple lines are a lossy-synthesis descriptor-usage
error.  (The `typedvar` resolver implementation is not among the given
sources.) -/
def encode_to_text {V P : Type} (d : var_type_def_t V P) (v : V) :
    Except usage_error (Option String) :=
  match d.fns.encode with
  | some e => .ok (e v d.params)
  | none =>
    match d.fns.kv_encode with
    | some ke =>
      match ke placeholder_key v d.params with
      | [l] => .ok (some l.value)
      | _ => .error .lossy_synthesis
    | none => .error .misconfigured

/-- Modelled from the spec: resolver entry encode-to-lines.  If
`kv_encode` is present, call it; else require `encode`, wrap its single
result as one line under the given key, or return the empty sequence if
it yielded none.  (The `typedvar` resolver implementation is not among
the given sources.) -/
def encode_to_lines {V P : Type} (d : var_type_def_t V P) (key : String)
    (v : V) : Except usage_error (List config_line_t) :=
  match d.fns.kv_encode with
  | some ke => .ok (ke key v d.params)
  | none =>
    match d.fns.encode with
    | some e =>
      match e v d.params with
      | some s => .ok [⟨key, s⟩]
      | none => .ok []
    | none => .error .misconfigured

/-- Modelled from the spec: resolver entry equals.  If `eq` is present,
call it; else encode both operands via encode-to-text and compare the
resulting texts for exact equality (two values both encoding to "no
value" are equal).  (The `typedvar` resolver implementation is not among
the given sources.) -/
def equals {V P : Type} (d : var_type_def_t V P) (a b : V) :
    Except usage_error Bool :=
  match d.fns.eq with
  | some q => .ok (q a b d.params)
  | none => do
    let ta ← encode_to_text d a
    let tb ← encode_to_text d b
    pure (ta == tb)

/-- Modelled from the spec: resolver entry duplicate.  If `copy` is
present, call it; else encode the value to text and parse-from-text it
into the target; failure of either step is propagated as copy failure
(an absent encoding leaves the target untouched and fails).  (The
`typedvar` resolver implementation is not among the given sources.) -/
def duplicate {V P : Type} (d : var_type_def_t V P) (target value : V) :
    Except usage_error (Int × V) :=
  match d.fns.copy with
  | some c => .ok (c target value d.params)
  | none => do
    let txt ← encode_to_text d value
    match txt with
    | none => pure (-1, target)
    | some s => do
      let r ← parse_from_text d target s
      pure (r.ret, r.target)

/-- Modelled from the spec: resolver entry reset.  If `clear` is present,
call it; otherwise do nothing.  (The `typedvar` resolver implementation
is not among the given sources.) -/
def reset {V P : Type} (d : var_type_def_t V P) (v : V) : V :=
  match d.fns.clear with
  | some cl => cl v d.params
  | none => v

/-- Modelled from the spec: resolver entry validate.  If `ok` is present,
call it; otherwise every value is valid.  (The `typedvar` resolver
implementation is not among the given sources.) -/
def validate {V P : Type} (d : var_type_def_t V P) (v : V) : Bool :=
  match d.fns.ok with
  | some o => o v d.params
  | none => true

/-- Modelled from the spec: resolver entry freeze-for-extension.  If
`mark_fragile` is present, call it; otherwise do nothing.  (The
`typedvar` resolver implementation is not among the given sources.) -/
def freeze_for_extension {V P : Type} (d : var_type_def_t V P) (v : V) :
    V :=
  match d.fns.mark_fragile with
  | some mf => mf v d.params
  | none => v

/-! Concrete example types, used to instantiate the theorems below.  They
play the role of external collaborator type implementations. -/

/-- A boolean-like external type implementation: parses "1"/"0", fails on
anything else with an error message and the target untouched. -/
def bool_parse (t : Bool) (s : String) (_ : Unit) : parse_result Bool :=
  if s = "1" then ⟨0, true, none⟩
  else if s = "0" then ⟨0, false, none⟩
  else ⟨-1, t, some "unrecognized boolean"⟩

/-- Encoder for the boolean-like example type. -/
def bool_encode (v : Bool) (_ : Unit) : Option String :=
  some (if v then "1" else "0")

/-- Key/value parser for the boolean-like example type: reads the first
line only. -/
def bool_kv_parse (t : Bool) (lines : List config_line_t) (_ : Unit) :
    parse_result Bool :=
  match lines with
  | [] => ⟨-1, t, some "no line given"⟩
  | l :: _ => bool_parse t l.value ()

/-- Key/value encoder for the boolean-like example type. -/
def bool_kv_encode (key : String) (v : Bool) (_ : Unit) :
    List config_line_t :=
  [⟨key, if v then "1" else "0"⟩]

/-- A descriptor implementing only `parse` and `encode`. -/
def ex_bool : var_type_def_t Bool Unit :=
  ⟨"exbool",
   ⟨some bool_parse, none, some bool_encode, none, none, none, none, none,
    none⟩,
   (), 0⟩

/-- A descriptor implementing every member of the function table,
including both members of both parse/encode pairs. -/
def ex_full : var_type_def_t Bool Unit :=
  ⟨"exfull",
   ⟨some bool_parse, some bool_kv_parse, some bool_encode,
    some bool_kv_encode, some (fun _ _ => false), some (fun a b _ => a == b),
    some (fun _ v _ => (0, v)), some (fun _ _ => true), some (fun v _ => v)⟩,
   (), 0⟩

/-- Key/value parser of a cumulative line-list example type: appends the
value of the first line. -/
def list_kv_parse (t : List String) (lines : List config_line_t)
    (_ : Unit) : parse_result (List String) :=
  match lines with
  | [] => ⟨-1, t, some "no line given"⟩
  | l :: _ => ⟨0, t ++ [l.value], none⟩

/-- Key/value encoder of the line-list example type: one line per
element. -/
def list_kv_encode (key : String) (v : List String) (_ : Unit) :
    List config_line_t :=
  v.map (fun s => ⟨key, s⟩)

/-- A cumulative descriptor implementing only `kv_parse` and `kv_encode`,
with `mark_fragile` absent. -/
def ex_lines : var_type_def_t (List String) Unit :=
  ⟨"exlines",
   ⟨none, some list_kv_parse, none, some list_kv_encode, none, none, none,
    none, none⟩,
   (), VTFLAG_CUMULATIVE⟩

/-- Claim C3: fallback never overrides.  On any descriptor where the
type-native function for an operation is present, the resolver result for
that operation is exactly the result of calling that native function
(synthesis can only occur in the remaining, absent cases). -/
theorem C3_native_wins {V P : Type} (d : var_type_def_t V P)
    (target v a b : V) (text key : String) (line : config_line_t)
    (rest : List config_line_t) :
    (∀ p, d.fns.parse = some p →
      parse_from_text d target text = .ok (p target text d.params)) ∧
    (∀ kp, d.fns.kv_parse = some kp →
      parse_from_line d target line rest =
        .ok (kp target (line :: rest) d.params)) ∧
    (∀ e, d.fns.encode = some e →
      encode_to_text d v = .ok (e v d.params)) ∧
    (∀ ke, d.fns.kv_encode = some ke →
      encode_to_lines d key v = .ok (ke key v d.params)) ∧
    (∀ q, d.fns.eq = some q → equals d a b = .ok (q a b d.params)) ∧
    (∀ c, d.fns.copy = some c →
      duplicate d target v = .ok (c target v d.params)) ∧
    (∀ cl, d.fns.clear = some cl → reset d v = cl v d.params) ∧
    (∀ o, d.fns.ok = some o → validate d v = o v d.params) ∧
    (∀ mf, d.fns.mark_fragile = some mf →
      freeze_for_extension d v = mf v d.params) := by
  refine ⟨?_, ?_, ?_, ?_, ?_, ?_, ?_, ?_, ?_⟩ <;> intro f hf <;>
    simp [parse_from_text, parse_from_line, encode_to_text, encode_to_lines,
      equals, duplicate, reset, validate, freeze_for_extension, hf]

/-- Witness for C3 on the everything-present descriptor: the native
parse, eq and ok implementations are what the resolver returns. -/
theorem C3_native_wins_witness :
    parse_from_text ex_full true "0" = .ok (bool_parse true "0" ()) ∧
    equals ex_full true false = .ok false ∧
    validate ex_full false = true :=
  ⟨(C3_native_wins ex_full true true true false "0" "k" ⟨"k", "0"⟩ []).1
      bool_parse rfl,
   (C3_native_wins ex_full true true true false "0" "k" ⟨"k", "0"⟩
      []).2.2.2.2.1 (fun a b _ => a == b) rfl,
   (C3_native_wins ex_full true false true false "0" "k" ⟨"k", "0"⟩
      []).2.2.2.2.2.2.2.1 (fun _ _ => true) rfl⟩

/-- Claim C9: on a descriptor carrying the cumulative flag whose
`mark_fragile` member is absent, freeze-for-extension silently degrades
to a no-op that leaves the value unchanged; no check rejects the call. -/
theorem C9_cumulative_freeze_noop {V P : Type} (d : var_type_def_t V P)
    (v : V) (habs : d.fns.mark_fragile = none)
    (hcum : d.flags &&& VTFLAG_CUMULATIVE ≠ 0) :
    freeze_for_extension d v = v := by
  simp [freeze_for_extension, habs]

/-- Witness for C9 on the cumulative line-list descriptor. -/
theorem C9_cumulative_freeze_noop_witness :
    ex_lines.fns.mark_fragile = none ∧
    ex_lines.flags &&& VTFLAG_CUMULATIVE ≠ 0 ∧
    freeze_for_extension ex_lines ["a"] = ["a"] :=
  ⟨rfl, by decide, C9_cumulative_freeze_noop ex_lines ["a"] rfl (by decide)⟩

/-- Claim C4: when `encode` is absent, encode-to-text calls `kv_encode`
with a placeholder key and returns the value text of the produced line
exactly when one line results; zero or multiple lines yield the
lossy-synthesis error, never a silent truncation to the first line. -/
theorem C4_lossy_synthesis {V P : Type} (d : var_type_def_t V P) (v : V)
    (habs : d.fns.encode = none)
    (ke : String → V → P → List config_line_t)
    (hke : d.fns.kv_encode = some ke) :
    (∀ l, ke placeholder_key v d.params = [l] →
      encode_to_text d v = .ok (some l.value)) ∧
    ((ke placeholder_key v d.params).length ≠ 1 →
      encode_to_text d v = .error .lossy_synthesis) := by
  constructor
  · intro l hl
    simp [encode_to_text, habs, hke, hl]
  · intro hlen
    simp only [encode_to_text, habs, hke]
    split
    · rename_i heq
      rw [heq] at hlen
      simp at hlen
    · rfl

/-- Witness for C4 on the `kv_encode`-only line-list descriptor: a
two-element value produces two lines and the lossy-synthesis error, a
one-element value encodes to its single text. -/
theorem C4_lossy_synthesis_witness :
    encode_to_text ex_lines ["a", "b"] = .error .lossy_synthesis ∧
    encode_to_text ex_lines ["a"] = .ok (some "a") :=
  ⟨(C4_lossy_synthesis ex_lines ["a", "b"] rfl list_kv_encode rfl).2
      (by decide),
   (C4_lossy_synthesis ex_lines ["a"] rfl list_kv_encode rfl).1
      ⟨placeholder_key, "a"⟩ rfl⟩

/-- The construction requirement stated by the header: every type MUST
implement `parse` or `kv_parse`, and `encode` or `kv_encode` (the other
function pointers MAY be NULL). -/
def must_implement {V P : Type} (fns : var_type_fns_t V P) : Prop :=
  (fns.parse.isSome ∨ fns.kv_parse.isSome) ∧
  (fns.encode.isSome ∨ fns.kv_encode.isSome)

/-- The stronger well-formedness reading under examination: exactly one
member of each of the two pairs is non-absent. -/
def exactly_one_of_each_pair {V P : Type} (fns : var_type_fns_t V P) :
    Prop :=
  (fns.parse.isSome ≠ fns.kv_parse.isSome) ∧
  (fns.encode.isSome ≠ fns.kv_encode.isSome)

/-- In the Except monad an error propagates through bind. -/
theorem bind_error_eq {ε α β : Type} (e : ε) (f : α → Except ε β) :
    (Except.error e >>= f : Except ε β) = Except.error e := rfl

/-- In the Except monad a success feeds its value through bind. -/
theorem bind_ok_eq {ε α β : Type} (a : α) (f : α → Except ε β) :
    (Except.ok a >>= f : Except ε β) = f a := rfl

/-- In the Except monad pure is success. -/
theorem pure_eq_ok {ε α : Type} (a : α) :
    (pure a : Except ε α) = Except.ok a := rfl

/-- With an encode-side member present, encode-to-text never surfaces a
misconfiguration. -/
theorem encode_to_text_no_misconfig {V P : Type} (d : var_type_def_t V P)
    (he : d.fns.encode.isSome ∨ d.fns.kv_encode.isSome) (v : V) :
    encode_to_text d v ≠ .error .misconfigured := by
  cases h1 : d.fns.encode with
  | some e => simp [encode_to_text, h1]
  | none =>
    cases h2 : d.fns.kv_encode with
    | some ke =>
      cases h3 : ke placeholder_key v d.params with
      | nil => simp [encode_to_text, h1, h2, h3]
      | cons l tl => cases tl <;> simp [encode_to_text, h1, h2, h3]
    | none => rw [h1, h2] at he; simp at he

/-- With a parse-side member present, parse-from-text never surfaces a
misconfiguration. -/
theorem parse_from_text_no_misconfig {V P : Type} (d : var_type_def_t V P)
    (hp : d.fns.parse.isSome ∨ d.fns.kv_parse.isSome) (target : V)
    (text : String) :
    parse_from_text d target text ≠ .error .misconfigured := by
  cases h1 : d.fns.parse with
  | some p => simp [parse_from_text, h1]
  | none =>
    cases h2 : d.fns.kv_parse with
    | some kp => simp [parse_from_text, h1, h2]
    | none => rw [h1, h2] at hp; simp at hp

/-- With a parse-side member present, parse-from-line never surfaces a
misconfiguration. -/
theorem parse_from_line_no_misconfig {V P : Type} (d : var_type_def_t V P)
    (hp : d.fns.parse.isSome ∨ d.fns.kv_parse.isSome) (target : V)
    (line : config_line_t) (rest : List config_line_t) :
    parse_from_line d target line rest ≠ .error .misconfigured := by
  cases h2 : d.fns.kv_parse with
  | some kp => simp [parse_from_line, h2]
  | none =>
    cases h1 : d.fns.parse with
    | some p => simp [parse_from_line, h1, h2]
    | none => rw [h1, h2] at hp; simp at hp

/-- With an encode-side member present, encode-to-lines never surfaces a
misconfiguration. -/
theorem encode_to_lines_no_misconfig {V P : Type}
    (d : var_type_def_t V P)
    (he : d.fns.encode.isSome ∨ d.fns.kv_encode.isSome) (key : String)
    (v : V) :
    encode_to_lines d key v ≠ .error .misconfigured := by
  cases h2 : d.fns.kv_encode with
  | some ke => simp [encode_to_lines, h2]
  | none =>
    cases h1 : d.fns.encode with
    | some e => cases h3 : e v d.params <;> simp [encode_to_lines, h1, h2, h3]
    | none => rw [h1, h2] at he; simp at he

/-- With an encode-side member present, equals never surfaces a
misconfiguration. -/
theorem equals_no_misconfig {V P : Type} (d : var_type_def_t V P)
    (he : d.fns.encode.isSome ∨ d.fns.kv_encode.isSome) (a b : V) :
    equals d a b ≠ .error .misconfigured := by
  cases hq : d.fns.eq with
  | some q => simp [equals, hq]
  | none =>
    simp only [equals, hq]
    cases h1 : encode_to_text d a with
    | error e1 =>
      have he1 : e1 ≠ usage_error.misconfigured := by
        have hne := encode_to_text_no_misconfig d he a
        rw [h1] at hne
        intro h4
        exact hne (by rw [h4])
      simp only [bind_error_eq]
      intro hh
      injection hh with h5
      exact he1 h5
    | ok ta =>
      simp only [bind_ok_eq]
      cases h2 : encode_to_text d b with
      | error e2 =>
        have he2 : e2 ≠ usage_error.misconfigured := by
          have hne := encode_to_text_no_misconfig d he b
          rw [h2] at hne
          intro h4
          exact hne (by rw [h4])
        simp only [bind_error_eq]
        intro hh
        injection hh with h5
        exact he2 h5
      | ok tb =>
        simp only [bind_ok_eq, pure_eq_ok]
        intro hh
        exact Except.noConfusion hh

/-- With both a parse-side and an encode-side member present, duplicate
never surfaces a misconfiguration. -/
theorem duplicate_no_misconfig {V P : Type} (d : var_type_def_t V P)
    (hp : d.fns.parse.isSome ∨ d.fns.kv_parse.isSome)
    (he : d.fns.encode.isSome ∨ d.fns.kv_encode.isSome)
    (target value : V) :
    duplicate d target value ≠ .error .misconfigured := by
  cases hc : d.fns.copy with
  | some c => simp [duplicate, hc]
  | none =>
    simp only [duplicate, hc]
    cases h1 : encode_to_text d value with
    | error e1 =>
      have he1 : e1 ≠ usage_error.misconfigured := by
        have hne := encode_to_text_no_misconfig d he value
        rw [h1] at hne
        intro h4
        exact hne (by rw [h4])
      simp only [bind_error_eq]
      intro hh
      injection hh with h5
      exact he1 h5
    | ok txt =>
      cases txt with
      | none =>
        simp only [bind_ok_eq]
        intro hh
        exact Except.noConfusion hh
      | some s =>
        simp only [bind_ok_eq]
        cases h2 : parse_from_text d target s with
        | error e2 =>
          have he2 : e2 ≠ usage_error.misconfigured := by
            have hne := parse_from_text_no_misconfig d hp target s
            rw [h2] at hne
            intro h4
            exact hne (by rw [h4])
          simp only [bind_error_eq]
          intro hh
          injection hh with h5
          exact he2 h5
        | ok r =>
          simp only [bind_ok_eq, pure_eq_ok]
          intro hh
          exact Except.noConfusion hh

/-- Counterexample to claim C2 as stated: a descriptor implementing both
members of both pairs satisfies the construction requirement the header
actually states, is served natively by the resolver, and never surfaces a
misconfiguration, yet violates the claimed "exactly one per pair". -/
theorem C2_exactly_one_counterexample :
    must_implement ex_full.fns ∧
    ¬ exactly_one_of_each_pair ex_full.fns ∧
    parse_from_text ex_full true "1" = .ok ⟨0, true, none⟩ ∧
    encode_to_text ex_full true = .ok (some "1") :=
  ⟨⟨Or.inl rfl, Or.inl rfl⟩, fun h => h.1 rfl, rfl, rfl⟩

/-- Claim C2 (amended): every descriptor implementing at least one member
of each pair — the requirement the header states — never lets any
resolver operation observe a misconfiguration at runtime. -/
theorem C2_amended_no_misconfig {V P : Type} (d : var_type_def_t V P)
    (h : must_implement d.fns) (target v a b : V) (text key : String)
    (line : config_line_t) (rest : List config_line_t) :
    parse_from_text d target text ≠ .error .misconfigured ∧
    parse_from_line d target line rest ≠ .error .misconfigured ∧
    encode_to_text d v ≠ .error .misconfigured ∧
    encode_to_lines d key v ≠ .error .misconfigured ∧
    equals d a b ≠ .error .misconfigured ∧
    duplicate d target v ≠ .error .misconfigured :=
  ⟨parse_from_text_no_misconfig d h.1 target text,
   parse_from_line_no_misconfig d h.1 target line rest,
   encode_to_text_no_misconfig d h.2 v,
   encode_to_lines_no_misconfig d h.2 key v,
   equals_no_misconfig d h.2 a b,
   duplicate_no_misconfig d h.1 h.2 target v⟩

/-- Witness for the amended C2 on the parse/encode-only descriptor. -/
theorem C2_amended_no_misconfig_witness :
    parse_from_text ex_bool true "1" ≠ .error .misconfigured ∧
    parse_from_line ex_bool true ⟨"k", "1"⟩ [] ≠ .error .misconfigured ∧
    encode_to_text ex_bool false ≠ .error .misconfigured ∧
    encode_to_lines ex_bool "k" false ≠ .error .misconfigured ∧
    equals ex_bool true false ≠ .error .misconfigured ∧
    duplicate ex_bool true false ≠ .error .misconfigured :=
  C2_amended_no_misconfig ex_bool ⟨Or.inl rfl, Or.inl rfl⟩ true false true
    false "1" "k" ⟨"k", "1"⟩ []

/-- The documented contract of a `parse` member: on success it returns 0
and writes no error message; on failure it returns -1, leaves the target
unchanged, and yields an error message. -/
def parse_contract {V P : Type} (pf : V → String → P → parse_result V)
    (prm : P) : Prop :=
  ∀ t s, ((pf t s prm).ret = 0 ∧ (pf t s prm).errmsg = none) ∨
    ((pf t s prm).ret = -1 ∧ (pf t s prm).target = t ∧
      (pf t s prm).errmsg ≠ none)

/-- The documented contract of a `kv_parse` member, as `parse_contract`. -/
def kv_parse_contract {V P : Type}
    (pf : V → List config_line_t → P → parse_result V) (prm : P) : Prop :=
  ∀ t ls, ((pf t ls prm).ret = 0 ∧ (pf t ls prm).errmsg = none) ∨
    ((pf t ls prm).ret = -1 ∧ (pf t ls prm).target = t ∧
      (pf t ls prm).errmsg ≠ none)

/-- Claim C5: on descriptors whose parse members honour the documented
contract, both resolver parse entries are atomic — a failing call
returns -1, leaves the target value unchanged and carries an error
message, and a successful call carries none. -/
theorem C5_parse_atomicity {V P : Type} (d : var_type_def_t V P)
    (hp : ∀ p, d.fns.parse = some p → parse_contract p d.params)
    (hkp : ∀ kp, d.fns.kv_parse = some kp → kv_parse_contract kp d.params)
    (target : V) (text : String) (line : config_line_t)
    (rest : List config_line_t) :
    (∀ r, parse_from_text d target text = .ok r →
      (r.ret = 0 ∧ r.errmsg = none) ∨
      (r.ret = -1 ∧ r.target = target ∧ r.errmsg ≠ none)) ∧
    (∀ r, parse_from_line d target line rest = .ok r →
      (r.ret = 0 ∧ r.errmsg = none) ∨
      (r.ret = -1 ∧ r.target = target ∧ r.errmsg ≠ none)) := by
  constructor
  · intro r hr
    cases h1 : d.fns.parse with
    | some p =>
      simp only [parse_from_text, h1] at hr
      injection hr with h2
      subst h2
      exact hp p h1 target text
    | none =>
      cases h2 : d.fns.kv_parse with
      | some kp =>
        simp only [parse_from_text, h1, h2] at hr
        injection hr with h3
        subst h3
        exact hkp kp h2 target [⟨engine_default_key, text⟩]
      | none => simp [parse_from_text, h1, h2] at hr
  · intro r hr
    cases h2 : d.fns.kv_parse with
    | some kp =>
      simp only [parse_from_line, h2] at hr
      injection hr with h3
      subst h3
      exact hkp kp h2 target (line :: rest)
    | none =>
      cases h1 : d.fns.parse with
      | some p =>
        simp only [parse_from_line, h1, h2] at hr
        injection hr with h3
        subst h3
        exact hp p h1 target line.value
      | none => simp [parse_from_line, h1, h2] at hr

/-- The boolean example parser satisfies the documented parse contract. -/
theorem bool_parse_contract : parse_contract bool_parse () := by
  intro t s
  unfold bool_parse
  by_cases h1 : s = "1"
  · simp [h1]
  · by_cases h2 : s = "0" <;> simp [h1, h2]

/-- Witness for C5: the failing input "99999" returns -1, leaves the
boolean target unchanged and carries an error message. -/
theorem C5_parse_atomicity_witness :
    ((bool_parse false "99999" ()).ret = 0 ∧
      (bool_parse false "99999" ()).errmsg = none) ∨
    ((bool_parse false "99999" ()).ret = -1 ∧
      (bool_parse false "99999" ()).target = false ∧
      (bool_parse false "99999" ()).errmsg ≠ none) :=
  (C5_parse_atomicity ex_bool
      (fun p hp => by
        have h : bool_parse = p := by simpa [ex_bool] using hp
        exact h ▸ bool_parse_contract)
      (fun kp hkp => by simp [ex_bool] at hkp)
      false "99999" ⟨"k", "99999"⟩ []).1 (bool_parse false "99999" ()) rfl

/-- Claim C6: with `eq` absent, equals agrees with exact textual
comparison of the two encode-to-text results, two values both encoding
to "no value" comparing equal. -/
theorem C6_synth_equality {V P : Type} (d : var_type_def_t V P) (a b : V)
    (habs : d.fns.eq = none) (ta tb : Option String)
    (ha : encode_to_text d a = .ok ta)
    (hb : encode_to_text d b = .ok tb) :
    equals d a b = .ok (ta == tb) ∧
    (ta = none → tb = none → equals d a b = .ok true) := by
  have h1 : equals d a b = .ok (ta == tb) := by
    simp only [equals, habs, ha, hb, bind_ok_eq, pure_eq_ok]
  refine ⟨h1, fun h2 h3 => ?_⟩
  subst h2
  subst h3
  simpa using h1

/-- Witness for C6: the parse/encode-only boolean descriptor compares
values through their encoded texts. -/
theorem C6_synth_equality_witness :
    equals ex_bool true true = .ok true ∧
    equals ex_bool true false = .ok false := by
  constructor
  · have h :=
      (C6_synth_equality ex_bool true true rfl (some "1") (some "1")
        rfl rfl).1
    simpa using h
  · have h :=
      (C6_synth_equality ex_bool true false rfl (some "1") (some "0")
        rfl rfl).1
    simpa using h

/-- The round-trip requirement the header imposes on implementations
(all strings generated by encode should produce a semantically
equivalent value when given to parse), instantiated for a native `parse`
member: every text produced by encode-to-text parses back, through that
member, to a value the resolver deems equal. -/
def roundtrip_via_parse {V P : Type} (d : var_type_def_t V P) : Prop :=
  ∀ p, d.fns.parse = some p → ∀ v t s,
    encode_to_text d v = .ok (some s) →
    (p t s d.params).ret = 0 ∧
    equals d (p t s d.params).target v = .ok true

/-- The same round-trip requirement for a native `kv_parse` member, at
the synthesized single-line call shape used by parse-from-text. -/
def roundtrip_via_kv_parse {V P : Type} (d : var_type_def_t V P) : Prop :=
  ∀ kp, d.fns.kv_parse = some kp → ∀ v t s,
    encode_to_text d v = .ok (some s) →
    (kp t [⟨engine_default_key, s⟩] d.params).ret = 0 ∧
    equals d (kp t [⟨engine_default_key, s⟩] d.params).target v = .ok true

/-- Lifting of the implementation-level round-trip requirement to the
resolver: with a parse-side member present, any text produced by
encode-to-text parses back through parse-from-text to an equal value. -/
theorem roundtrip_lift {V P : Type} (d : var_type_def_t V P)
    (hwf : d.fns.parse.isSome ∨ d.fns.kv_parse.isSome)
    (h1 : roundtrip_via_parse d) (h2 : roundtrip_via_kv_parse d)
    (v t : V) (s : String)
    (henc : encode_to_text d v = .ok (some s)) :
    ∃ r, parse_from_text d t s = .ok r ∧ r.ret = 0 ∧
      equals d r.target v = .ok true := by
  cases hp : d.fns.parse with
  | some p =>
    exact ⟨p t s d.params, by simp [parse_from_text, hp],
      (h1 p hp v t s henc).1, (h1 p hp v t s henc).2⟩
  | none =>
    cases hkp : d.fns.kv_parse with
    | some kp =>
      exact ⟨kp t [⟨engine_default_key, s⟩] d.params,
        by simp [parse_from_text, hp, hkp],
        (h2 kp hkp v t s henc).1, (h2 kp hkp v t s henc).2⟩
    | none => rw [hp, hkp] at hwf; simp at hwf

/-- Claim C1: round-trip fidelity.  On every descriptor whose parse
members satisfy the documented requirement that each encoded text parses
back to an equal value, every validated value that encodes to a text is
parsed back by parse-from-text to a value the resolver deems equal. -/
theorem C1_round_trip {V P : Type} (d : var_type_def_t V P)
    (hwf : d.fns.parse.isSome ∨ d.fns.kv_parse.isSome)
    (h1 : roundtrip_via_parse d) (h2 : roundtrip_via_kv_parse d)
    (v t : V) (s : String) (hok : validate d v = true)
    (henc : encode_to_text d v = .ok (some s)) :
    ∃ r, parse_from_text d t s = .ok r ∧ r.ret = 0 ∧
      equals d r.target v = .ok true :=
  roundtrip_lift d hwf h1 h2 v t s henc

/-- The boolean example type satisfies the round-trip requirement
through its native parse member. -/
theorem ex_bool_rt_parse : roundtrip_via_parse ex_bool := by
  intro p hp v t s henc
  have hp2 : bool_parse = p := by simpa [ex_bool] using hp
  subst hp2
  cases v
  · have hs : s = "0" := by
      simpa [encode_to_text, ex_bool, bool_encode] using henc.symm
    subst hs
    exact ⟨rfl, rfl⟩
  · have hs : s = "1" := by
      simpa [encode_to_text, ex_bool, bool_encode] using henc.symm
    subst hs
    exact ⟨rfl, rfl⟩

/-- The boolean example type has no `kv_parse`, so the kv side of the
round-trip requirement holds vacuously. -/
theorem ex_bool_rt_kv : roundtrip_via_kv_parse ex_bool := by
  intro kp hkp
  simp [ex_bool] at hkp

/-- Witness for C1: the boolean descriptor round-trips the value true
through the text "1". -/
theorem C1_round_trip_witness :
    ∃ r, parse_from_text ex_bool false "1" = .ok r ∧ r.ret = 0 ∧
      equals ex_bool r.target true = .ok true :=
  C1_round_trip ex_bool (Or.inl rfl) ex_bool_rt_parse ex_bool_rt_kv true
    false "1" rfl rfl

/-- Claim C7: with `copy` absent, duplicate is exactly the
encode-to-text followed by parse-from-text composition, either failure
propagating as copy failure; and whenever the source encodes to a text,
on a descriptor honouring the round-trip requirement duplicate succeeds
with a target the resolver deems equal to the source. -/
theorem C7_synth_copy {V P : Type} (d : var_type_def_t V P)
    (habs : d.fns.copy = none) (target value : V) :
    (∀ e, encode_to_text d value = .error e →
      duplicate d target value = .error e) ∧
    (∀ s r, encode_to_text d value = .ok (some s) →
      parse_from_text d target s = .ok r →
      duplicate d target value = .ok (r.ret, r.target)) ∧
    (∀ s e, encode_to_text d value = .ok (some s) →
      parse_from_text d target s = .error e →
      duplicate d target value = .error e) ∧
    ((d.fns.parse.isSome ∨ d.fns.kv_parse.isSome) →
      roundtrip_via_parse d → roundtrip_via_kv_parse d →
      ∀ s, encode_to_text d value = .ok (some s) →
      ∃ res, duplicate d target value = .ok res ∧ res.1 = 0 ∧
        equals d res.2 value = .ok true) := by
  refine ⟨?_, ?_, ?_, ?_⟩
  · intro e he
    simp only [duplicate, habs, he, bind_error_eq]
  · intro s r he hpr
    simp only [duplicate, habs, he, bind_ok_eq, hpr, pure_eq_ok]
  · intro s e he hpr
    simp only [duplicate, habs, he, bind_ok_eq, hpr, bind_error_eq]
  · intro hwf h1 h2 s he
    obtain ⟨r, hr1, hr2, hr3⟩ := roundtrip_lift d hwf h1 h2 value target s he
    refine ⟨(r.ret, r.target), ?_, by simp [hr2], hr3⟩
    simp only [duplicate, habs, he, bind_ok_eq, hr1, pure_eq_ok]

/-- Witness for C7: the synthesized copy on the boolean descriptor
parses the encoded source into the target, equal to the source. -/
theorem C7_synth_copy_witness :
    duplicate ex_bool false true = .ok (0, true) ∧
    equals ex_bool true true = .ok true :=
  ⟨(C7_synth_copy ex_bool rfl false true).2.1 "1" ⟨0, true, none⟩ rfl rfl,
   rfl⟩

/-- Claim C8: on a descriptor implementing only `parse` and `encode`,
encode-to-lines followed by parse-from-line on the first produced line
round-trips to a value the resolver deems equal, given the documented
round-trip requirement. -/
theorem C8_kv_bridge {V P : Type} (d : var_type_def_t V P)
    (hkp : d.fns.kv_parse = none) (hke : d.fns.kv_encode = none)
    (hps : d.fns.parse.isSome) (hrt : roundtrip_via_parse d)
    (key : String) (v t : V) (lines : List config_line_t)
    (l : config_line_t) (henc : encode_to_lines d key v = .ok lines)
    (hhead : lines.head? = some l) :
    ∃ r, parse_from_line d t l [] = .ok r ∧ r.ret = 0 ∧
      equals d r.target v = .ok true := by
  cases he : d.fns.encode with
  | none => simp [encode_to_lines, hke, he] at henc
  | some e =>
    cases hev : e v d.params with
    | none =>
      simp only [encode_to_lines, hke, he, hev] at henc
      injection henc with h2
      rw [← h2] at hhead
      simp at hhead
    | some s =>
      simp only [encode_to_lines, hke, he, hev] at henc
      injection henc with h2
      rw [← h2] at hhead
      simp at hhead
      cases hp : d.fns.parse with
      | none => rw [hp] at hps; simp at hps
      | some p =>
        subst hhead
        refine ⟨p t s d.params,
          by simp [parse_from_line, hkp, hp], ?_, ?_⟩
        · exact (hrt p hp v t s (by simp [encode_to_text, he, hev])).1
        · exact (hrt p hp v t s (by simp [encode_to_text, he, hev])).2

/-- Witness for C8: the boolean descriptor bridges the key/value side,
the line produced for true parsing back to an equal value. -/
theorem C8_kv_bridge_witness :
    ∃ r, parse_from_line ex_bool false ⟨"opt", "1"⟩ [] = .ok r ∧
      r.ret = 0 ∧ equals ex_bool r.target true = .ok true :=
  C8_kv_bridge ex_bool rfl rfl rfl ex_bool_rt_parse "opt" true false
    [⟨"opt", "1"⟩] ⟨"opt", "1"⟩ rfl rfl

/-! Store-level model for the frame claim.  A C function receiving
pointers can in principle write through any of them; to make "the
`const` operands are left unchanged" expressible, each member here
returns, besides its result, the final state of every pointee it
received.  A two-operand call carries the pair (first operand, second
operand).  The `const` qualifiers of the header signatures are not baked
into the types; they become the contract hypotheses of the frame
theorem.  A `parse` call receives only the target pointer, and the
resolver never aliases values across calls, so the parse member keeps
its one-pointee shape. -/

/-- Store-level fragment of the function table for the plain-string
operations involved in the frame claim. -/
structure var_type_fns_mem (V P : Type) where
  parse : Option (V → String → P → parse_result V)
  encode : Option (V → P → Option String × V)
  eq : Option (V × V → P → Bool × (V × V))
  copy : Option (V × V → P → Int × (V × V))
  ok : Option (V → P → Bool × V)

/-- Modelled from the spec: the equals entry over the operand store (the
`typedvar` resolver implementation is not among the given sources);
`none` when neither `eq` nor `encode` is available in this fragment. -/
def equals_mem {V P : Type} (fns : var_type_fns_mem V P) (prm : P)
    (st : V × V) : Option (Bool × (V × V)) :=
  match fns.eq with
  | some q => some (q st prm)
  | none =>
    match fns.encode with
    | some e =>
      some ((e st.1 prm).1 == (e st.2 prm).1,
        ((e st.1 prm).2, (e st.2 prm).2))
    | none => none

/-- Modelled from the spec: the validate entry over the operand store
(the `typedvar` resolver implementation is not among the given
sources). -/
def validate_mem {V P : Type} (fns : var_type_fns_mem V P) (prm : P)
    (v : V) : Bool × V :=
  match fns.ok with
  | some o => o v prm
  | none => (true, v)

/-- Modelled from the spec: the duplicate entry over the operand store,
with the state as (target, source) (the `typedvar` resolver
implementation is not among the given sources). -/
def duplicate_mem {V P : Type} (fns : var_type_fns_mem V P) (prm : P)
    (st : V × V) : Option (Int × (V × V)) :=
  match fns.copy with
  | some c => some (c st prm)
  | none =>
    match fns.encode with
    | some e =>
      match (e st.2 prm).1 with
      | none => some (-1, (st.1, (e st.2 prm).2))
      | some s =>
        match fns.parse with
        | some p =>
          some ((p st.1 s prm).ret, ((p st.1 s prm).target, (e st.2 prm).2))
        | none => none
    | none => none

/-- Claim C10: read-only operands are never mutated.  Under the `const`
contracts the header signatures state — `eq`, `ok` and `encode` return
every pointee unchanged, `copy` returns its source unchanged — the
resolver leaves both equality operands and the validated value
unchanged, and duplicate leaves the source unchanged, also on the
synthesized encode-then-parse path. -/
theorem C10_const_frame {V P : Type} (fns : var_type_fns_mem V P)
    (prm : P)
    (heq : ∀ q, fns.eq = some q → ∀ st, (q st prm).2 = st)
    (hok : ∀ o, fns.ok = some o → ∀ v, (o v prm).2 = v)
    (hcp : ∀ c, fns.copy = some c → ∀ st, (c st prm).2.2 = st.2)
    (hen : ∀ e, fns.encode = some e → ∀ v, (e v prm).2 = v)
    (st : V × V) (v : V) :
    (∀ res, equals_mem fns prm st = some res → res.2 = st) ∧
    (validate_mem fns prm v).2 = v ∧
    (∀ res, duplicate_mem fns prm st = some res → res.2.2 = st.2) := by
  refine ⟨?_, ?_, ?_⟩
  · intro res hres
    cases hq : fns.eq with
    | some q =>
      simp only [equals_mem, hq] at hres
      injection hres with h2
      subst h2
      exact heq q hq st
    | none =>
      cases he : fns.encode with
      | some e =>
        simp only [equals_mem, hq, he] at hres
        injection hres with h2
        subst h2
        simp [hen e he st.1, hen e he st.2]
      | none => simp [equals_mem, hq, he] at hres
  · cases ho : fns.ok with
    | some o =>
      simp only [validate_mem, ho]
      exact hok o ho v
    | none => simp [validate_mem, ho]
  · intro res hres
    cases hc : fns.copy with
    | some c =>
      simp only [duplicate_mem, hc] at hres
      injection hres with h2
      subst h2
      exact hcp c hc st
    | none =>
      cases he : fns.encode with
      | none => simp [duplicate_mem, hc, he] at hres
      | some e =>
        cases ht : (e st.2 prm).1 with
        | none =>
          simp only [duplicate_mem, hc, he, ht] at hres
          injection hres with h2
          subst h2
          exact hen e he st.2
        | some s =>
          cases hp : fns.parse with
          | none => simp [duplicate_mem, hc, he, ht, hp] at hres
          | some p =>
            simp only [duplicate_mem, hc, he, ht, hp] at hres
            injection hres with h2
            subst h2
            exact hen e he st.2

/-- Store-level boolean example: a native parse and a const-respecting
encode; the remaining members are absent. -/
def ex_mem : var_type_fns_mem Bool Unit :=
  ⟨some bool_parse,
   some (fun v _ => (some (if v then "1" else "0"), v)),
   none, none, none⟩

/-- Witness for C10: on the store-level boolean example, validate
returns its value unchanged and the synthesized duplicate returns the
source slot unchanged. -/
theorem C10_const_frame_witness :
    (validate_mem ex_mem () true).2 = true ∧
    duplicate_mem ex_mem () (false, true) = some (0, (true, true)) ∧
    ((0 : Int), (true, true)).2.2 = true := by
  have h := C10_const_frame ex_mem ()
    (fun q hq => by simp [ex_mem] at hq)
    (fun o ho => by simp [ex_mem] at ho)
    (fun c hc => by simp [ex_mem] at hc)
    (fun e he => by
      have h2 : (fun (v : Bool) (_ : Unit) =>
          ((some (if v then "1" else "0") : Option String), v)) = e := by
        simpa [ex_mem] using he
      subst h2
      intro v
      rfl)
    (false, true) true
  exact ⟨h.2.1, rfl, h.2.2 (0, (true, true)) rfl⟩

end ConfMgt
